import Mathlib

/-!
# Verification of the retro-stats GitHub activity scripts

Shallow embedding of the two `retro-stats` script variants
(`scripts/retro-stats-gif.js`, the 80-column variant, and the unnamed
39-column variant) plus the simpler `scripts/retro-stats.js`.

External effects are modelled explicitly:
* the GitHub API is an oracle supplied as data (per-repository commit
  pages, language breakdowns, user lookup results, search result items);
* a failing API call is an `Except.error` / `Option.none` value;
* JavaScript's `" ".repeat(n)`, which throws a `RangeError` for `n < 0`,
  is modelled by returning `none` in the negative case.

All definitions are executable and follow the JavaScript sources
line by line; theorems about them come after the definitions.
-/

namespace RetroStats

/-! ## String helpers and the panel row formatters -/

/-- `String.repeat`-style helper: `n` copies of the character `c`. -/
def repeatChar (c : Char) (n : Nat) : String := String.mk (List.replicate n c)

/-- Model of JavaScript `" ".repeat(n)` for `n ≥ 0`. -/
def spaces (n : Nat) : String := repeatChar ' ' n

/-- Embedding of `formatarLinha(texto, valor)` (both variants; the panel
width `LARGURA_LINHA` is 80 in `retro-stats-gif.js` and 39 in the unnamed
variant, so it is a parameter here).  The JavaScript computes
`espacoDisponivel = LARGURA_LINHA - texto.length - valor.length - 4` and
calls `" ".repeat(espacoDisponivel)`, which throws when the count is
negative; that failure is modelled as `none`. -/
def formatarLinha (largura : Nat) (texto : String) (valor : String) : Option String :=
  let espacoDisponivel : Int := (largura : Int) - texto.length - valor.length - 4
  if espacoDisponivel < 0 then none
  else some ("│ " ++ texto ++ spaces espacoDisponivel.toNat ++ valor ++ " │")

/-- Embedding of `criarLinhaTitulo(texto)` from `retro-stats-gif.js`:
centers `texto` between the border pipes.  As with `formatarLinha`, a
negative space count would make `" ".repeat` throw, modelled as `none`. -/
def criarLinhaTitulo (largura : Nat) (texto : String) : Option String :=
  let espacos : Int := (largura : Int) - texto.length - 4
  if espacos < 0 then none
  else
    let espacosEsquerda : Nat := espacos.toNat / 2
    let espacosDireita : Nat := espacos.toNat - espacosEsquerda
    some ("│ " ++ spaces espacosEsquerda ++ texto ++ spaces espacosDireita ++ " │")

/-- `LARGURA_LINHA` of `retro-stats-gif.js`. -/
def LARGURA_LINHA : Nat := 80

/-- `linhaSuperior` of `retro-stats-gif.js`: `"┌" + "─".repeat(78) + "┐"`. -/
def linhaSuperior : String := "┌" ++ repeatChar '─' (LARGURA_LINHA - 2) ++ "┐"

/-- `linhaSeparadora` of `retro-stats-gif.js`. -/
def linhaSeparadora : String := "├" ++ repeatChar '─' (LARGURA_LINHA - 2) ++ "┤"

/-- `linhaInferior` of `retro-stats-gif.js`. -/
def linhaInferior : String := "└" ++ repeatChar '─' (LARGURA_LINHA - 2) ++ "┘"

/-- Top border literal of the 39-column variant (source comment: 39 chars). -/
def linha39Top : String := "┌─────────────────────────────────────┐"

/-- Title literal of the 39-column variant. -/
def linha39Titulo : String := "│              Statistics             │"

/-- Separator literal of the 39-column variant (used twice). -/
def linha39Sep : String := "├─────────────────────────────────────┤"

/-- Bottom border literal of the 39-column variant. -/
def linha39Bottom : String := "└─────────────────────────────────────┘"

/-! ## The `retro-stats.js` variant -/

/-- Repository entry as consumed by `retro-stats.js` (only `name` is read). -/
structure RepoInfo where
  name : String
deriving Repr, DecidableEq

/-- The data object built by `getGitHubData` in `retro-stats.js`. -/
structure GitData where
  commitsSemana : Nat
  prsSemana : Nat
  issuesSemana : Nat
  linguagemMaisUsada : String
  repoMaisAtivo : String
deriving Repr, DecidableEq

/-- Embedding of `getGitHubData` from `retro-stats.js`: it reads
`repos.data[0].name` with no emptiness check; on an empty listing the
`.name` access throws a `TypeError` (modelled: `none`).  The numeric
fields are the hard-coded constants of the source. -/
def getGitHubData (reposData : List RepoInfo) : Option GitData :=
  (reposData.head?).map fun first =>
    { commitsSemana := 23
      prsSemana := 2
      issuesSemana := 1
      linguagemMaisUsada := "JavaScript"
      repoMaisAtivo := first.name }

/-- JavaScript `String.prototype.padEnd(n, " ")`. -/
def padEnd (s : String) (n : Nat) : String := s ++ spaces (n - s.length)

/-- Embedding of `gerarPainelRetro` from `retro-stats.js` (the trimmed
template literal, lines joined by newlines). -/
def gerarPainelRetro (dados : GitData) (dataAtual : String) : String :=
  "┌─────────────────────────────────────┐\n" ++
  "│            Hcelante Stats           │\n" ++
  "├─────────────────────────────────────┤\n" ++
  "│ Commits (últimos 7 dias):   " ++ padEnd (toString dados.commitsSemana) 3 ++ "     │\n" ++
  "│ PRs criadas (últimos 7 dias): " ++ padEnd (toString dados.prsSemana) 3 ++ "       │\n" ++
  "│ Issues abertas (últimos 7 dias):" ++ padEnd (toString dados.issuesSemana) 3 ++ "  │\n" ++
  "├─────────────────────────────────────┤\n" ++
  "│ Linguagem + usada: " ++ padEnd dados.linguagemMaisUsada 14 ++ "       │\n" ++
  "│ Repositório + ativo: " ++ padEnd dados.repoMaisAtivo 14 ++ "          │\n" ++
  "└─────────────────────────────────────┘\n" ++
  " Last update: " ++ dataAtual

/-- Embedding of the `retro-stats.js` entry point: on any uncaught error
(here: the empty-listing `TypeError` inside `getGitHubData`) the process
logs and exits with status 1 (modelled: `Except.error ()`), otherwise it
writes the fenced panel into `retro-stats.md` (modelled: the written text
returned as `Except.ok`). -/
def runRetroStats (reposData : List RepoInfo) (dataAtual : String) : Except Unit String :=
  match getGitHubData reposData with
  | none => .error ()
  | some dados => .ok ("```\n" ++ gerarPainelRetro dados dataAtual ++ "\n```\n")

/-! ## GitHub API oracle and the statistics aggregator -/

/-- An error returned by a GitHub API call; `status` is the HTTP status
(the gif variant's commit counter branches on `error.status === 404`). -/
structure ApiError where
  status : Nat
deriving Repr, DecidableEq

/-- One repository as returned by `repos.listForUser`, bundled with the
oracle for the per-repository API calls the aggregator makes about it:
`commitPages` lists the successive pages `repos.listCommits` returns
(page size 100; past the end of the list the endpoint returns an empty
page), and `languages` is the result of `repos.listLanguages`. -/
structure Repo where
  name : String
  isPrivate : Bool
  stargazers_count : Nat
  forks_count : Nat
  commitPages : List (Except ApiError (List Unit))
  languages : Except ApiError (List (String × Nat))
deriving Repr

/-- The `while` loop of `countCommitsLast7Days` in the 39-column variant:
accumulate page item counts, stop at the first page returning fewer than
`perPage = 100` items.  This variant has no `try`/`catch`, so an API
error propagates out of the loop. -/
def countCommitsGoP0 (pages : List (Except ApiError (List Unit))) (total : Nat) :
    Except ApiError Nat :=
  match pages with
  | [] => .ok total
  | .error e :: _ => .error e
  | .ok items :: rest =>
    if items.length < 100 then .ok (total + items.length)
    else countCommitsGoP0 rest (total + items.length)

/-- `countCommitsLast7Days` of the 39-column variant (`page` starts at 1,
`total` at 0). -/
def countCommitsLast7DaysP0 (pages : List (Except ApiError (List Unit))) :
    Except ApiError Nat :=
  countCommitsGoP0 pages 0

/-- The same loop in `retro-stats-gif.js`, where it is wrapped twice: the
inner `catch` returns 0 on a 404, any other error is rethrown and the
outer `catch` returns 0 as well — so the first failing page makes the
whole count 0 (discarding pages already accumulated). -/
def countCommitsGoGif (pages : List (Except ApiError (List Unit))) (total : Nat) : Nat :=
  match pages with
  | [] => total
  | .error e :: _ => if e.status = 404 then 0 else 0
  | .ok items :: rest =>
    if items.length < 100 then total + items.length
    else countCommitsGoGif rest (total + items.length)

/-- `countCommitsLast7Days` of `retro-stats-gif.js`. -/
def countCommitsLast7DaysGif (pages : List (Except ApiError (List Unit))) : Nat :=
  countCommitsGoGif pages 0

/-- Mutable locals of the per-repository loop in `getAllStats`:
`totalCommits7d`, `repoMaisAtivo`, `maxCommitsNoRepo`, `languageTotals`.
The JavaScript `languageTotals` object is an insertion-ordered map,
modelled as an association list. -/
structure LoopState where
  totalCommits7d : Nat
  repoMaisAtivo : String
  maxCommitsNoRepo : Nat
  languageTotals : List (String × Nat)
deriving Repr, DecidableEq

/-- Initial loop state: `totalCommits7d = 0`, `repoMaisAtivo = 'N/A'`,
`maxCommitsNoRepo = 0`, empty `languageTotals`. -/
def initLoopState : LoopState := ⟨0, "N/A", 0, []⟩

/-- `languageTotals[lang] += count` on the insertion-ordered map: an
existing key keeps its position, a new key is appended. -/
def addLang (totals : List (String × Nat)) (lang : String) (count : Nat) :
    List (String × Nat) :=
  if totals.any (fun p => p.1 = lang) then
    totals.map (fun p => if p.1 = lang then (p.1, p.2 + count) else p)
  else totals ++ [(lang, count)]

/-- The `for (const [lang, count] of Object.entries(langs))` loop. -/
def addLangs (totals : List (String × Nat)) (langs : List (String × Nat)) :
    List (String × Nat) :=
  langs.foldl (fun t e => addLang t e.1 e.2) totals

/-- One iteration of the per-repository loop of `getAllStats` in
`retro-stats-gif.js`: count the repo's recent commits (failures recovered
as 0 by `countCommitsLast7DaysGif`), update the running most-active
tracking (strict `>`), then fold the repo's language breakdown into
`languageTotals` (skipped when the language call fails). -/
def repoStepGif (st : LoopState) (repo : Repo) : LoopState :=
  let commitsCount := countCommitsLast7DaysGif repo.commitPages
  let st1 : LoopState :=
    { st with
      totalCommits7d := st.totalCommits7d + commitsCount
      repoMaisAtivo := if commitsCount > st.maxCommitsNoRepo then repo.name else st.repoMaisAtivo
      maxCommitsNoRepo := if commitsCount > st.maxCommitsNoRepo then commitsCount
                          else st.maxCommitsNoRepo }
  match repo.languages with
  | .ok langs => { st1 with languageTotals := addLangs st1.languageTotals langs }
  | .error _ => st1

/-- The full per-repository loop of `getAllStats` (gif variant). -/
def repoLoopGif (repos : List Repo) : LoopState :=
  repos.foldl repoStepGif initLoopState

/-- The per-repository loop of `getAllStats` in the 39-column variant:
identical bookkeeping, but `countCommitsLast7Days` is not guarded, so a
failing commit listing aborts the whole loop (and hence the run). -/
def repoLoopGoP0 (st : LoopState) : List Repo → Except ApiError LoopState
  | [] => .ok st
  | repo :: rest =>
    match countCommitsLast7DaysP0 repo.commitPages with
    | .error e => .error e
    | .ok commitsCount =>
      let st1 : LoopState :=
        { st with
          totalCommits7d := st.totalCommits7d + commitsCount
          repoMaisAtivo := if commitsCount > st.maxCommitsNoRepo then repo.name
                           else st.repoMaisAtivo
          maxCommitsNoRepo := if commitsCount > st.maxCommitsNoRepo then commitsCount
                              else st.maxCommitsNoRepo }
      let st2 : LoopState :=
        match repo.languages with
        | .ok langs => { st1 with languageTotals := addLangs st1.languageTotals langs }
        | .error _ => st1
      repoLoopGoP0 st2 rest

/-- The full per-repository loop of the 39-column variant. -/
def repoLoopP0 (repos : List Repo) : Except ApiError LoopState :=
  repoLoopGoP0 initLoopState repos

/-! ## Top-K language ranking (the cascading comparisons) -/

/-- The four ranked language slots of `retro-stats-gif.js`
(`linguagemMaisUsada` … `quartaLinguagemMaisUsada` with their running
values `maxLangValue` … `fourthMaxLangValue`, initialised to `'N/A'` and
`-1`). -/
structure Rank4 where
  linguagemMaisUsada : String
  segundaLinguagemMaisUsada : String
  terceiraLinguagemMaisUsada : String
  quartaLinguagemMaisUsada : String
  maxLangValue : Int
  secondMaxLangValue : Int
  thirdMaxLangValue : Int
  fourthMaxLangValue : Int
deriving Repr, DecidableEq

/-- Initial ranking state of the gif variant. -/
def initRank4 : Rank4 := ⟨"N/A", "N/A", "N/A", "N/A", -1, -1, -1, -1⟩

/-- One step of the cascading comparison scan of `retro-stats-gif.js`
(K = 4): compare the entry against the slots from highest to lowest with
strict `>`, shift the lower slots down at the first slot it exceeds. -/
def rank4Step (st : Rank4) (e : String × Nat) : Rank4 :=
  if (e.2 : Int) > st.maxLangValue then
    { linguagemMaisUsada := e.1
      segundaLinguagemMaisUsada := st.linguagemMaisUsada
      terceiraLinguagemMaisUsada := st.segundaLinguagemMaisUsada
      quartaLinguagemMaisUsada := st.terceiraLinguagemMaisUsada
      maxLangValue := (e.2 : Int)
      secondMaxLangValue := st.maxLangValue
      thirdMaxLangValue := st.secondMaxLangValue
      fourthMaxLangValue := st.thirdMaxLangValue }
  else if (e.2 : Int) > st.secondMaxLangValue then
    { st with
      segundaLinguagemMaisUsada := e.1
      terceiraLinguagemMaisUsada := st.segundaLinguagemMaisUsada
      quartaLinguagemMaisUsada := st.terceiraLinguagemMaisUsada
      secondMaxLangValue := (e.2 : Int)
      thirdMaxLangValue := st.secondMaxLangValue
      fourthMaxLangValue := st.thirdMaxLangValue }
  else if (e.2 : Int) > st.thirdMaxLangValue then
    { st with
      terceiraLinguagemMaisUsada := e.1
      quartaLinguagemMaisUsada := st.terceiraLinguagemMaisUsada
      thirdMaxLangValue := (e.2 : Int)
      fourthMaxLangValue := st.thirdMaxLangValue }
  else if (e.2 : Int) > st.fourthMaxLangValue then
    { st with
      quartaLinguagemMaisUsada := e.1
      fourthMaxLangValue := (e.2 : Int) }
  else st

/-- The K = 4 ranking scan over `languageTotals` (guarded by the source's
`Object.keys(languageTotals).length > 0` check). -/
def rank4 (entries : List (String × Nat)) : Rank4 :=
  if entries.length > 0 then entries.foldl rank4Step initRank4 else initRank4

/-- The two ranked language slots of the 39-column variant. -/
structure Rank2 where
  linguagemMaisUsada : String
  segundaLinguagemMaisUsada : String
  maxLangValue : Int
  secondMaxLangValue : Int
deriving Repr, DecidableEq

/-- Initial ranking state of the 39-column variant. -/
def initRank2 : Rank2 := ⟨"N/A", "N/A", -1, -1⟩

/-- One step of the cascading comparison scan of the 39-column variant
(K = 2). -/
def rank2Step (st : Rank2) (e : String × Nat) : Rank2 :=
  if (e.2 : Int) > st.maxLangValue then
    { linguagemMaisUsada := e.1
      segundaLinguagemMaisUsada := st.linguagemMaisUsada
      maxLangValue := (e.2 : Int)
      secondMaxLangValue := st.maxLangValue }
  else if (e.2 : Int) > st.secondMaxLangValue then
    { st with
      segundaLinguagemMaisUsada := e.1
      secondMaxLangValue := (e.2 : Int) }
  else st

/-- The K = 2 ranking scan over `languageTotals`. -/
def rank2 (entries : List (String × Nat)) : Rank2 :=
  if entries.length > 0 then entries.foldl rank2Step initRank2 else initRank2

/-- Ranked insertion used to specify the cascading scan: walking down
from the highest slot with the same strict comparison the scan uses, the
new entry is placed before the first entry whose total it strictly
exceeds — i.e. after every earlier entry with an equal or larger total. -/
def insertRanked (e : String × Nat) : List (String × Nat) → List (String × Nat)
  | [] => [e]
  | x :: xs => if e.2 > x.2 then e :: x :: xs else x :: insertRanked e xs

/-- Stable descending insertion sort by byte total: entries are processed
in map insertion order and each goes after all earlier entries with an
equal or larger total. -/
def sortDesc (entries : List (String × Nat)) : List (String × Nat) :=
  entries.foldl (fun acc e => insertRanked e acc) []

/-- Bounded ranked list: after each insertion only the first `k` slots
are kept (the old lowest slot is evicted). -/
def topK (k : Nat) (entries : List (String × Nat)) : List (String × Nat) :=
  entries.foldl (fun acc e => (insertRanked e acc).take k) []

/-- Language name of the `i`-th ranked slot (`'N/A'` when empty). -/
def nameAt (l : List (String × Nat)) (i : Nat) : String :=
  match l[i]? with
  | some e => e.1
  | none => "N/A"

/-- Value of the `i`-th ranked slot (`-1` when empty). -/
def valAt (l : List (String × Nat)) (i : Nat) : Int :=
  match l[i]? with
  | some e => (e.2 : Int)
  | none => -1

/-- View of a ranked list (length ≤ 4) as the four-slot scan state. -/
def toRank4 (l : List (String × Nat)) : Rank4 :=
  ⟨nameAt l 0, nameAt l 1, nameAt l 2, nameAt l 3,
   valAt l 0, valAt l 1, valAt l 2, valAt l 3⟩

/-- View of a ranked list (length ≤ 2) as the two-slot scan state. -/
def toRank2 (l : List (String × Nat)) : Rank2 :=
  ⟨nameAt l 0, nameAt l 1, valAt l 0, valAt l 1⟩

/-! ## Search counter -/

/-- The paginated loop of `countSearchItems`: the search endpoint over a
fixed result set serves page `p` (1-based) as
`items.drop ((p-1)*100) |>.take 100`; the loop adds each page's item
count to `total` and stops at the first page returning fewer than
`perPage = 100` items.  The second component instruments the number of
paginated calls made. -/
def countSearchGo (remaining : List Unit) (total : Nat) (calls : Nat) : Nat × Nat :=
  if (remaining.take 100).length < 100 then (total + (remaining.take 100).length, calls + 1)
  else countSearchGo (remaining.drop 100) (total + (remaining.take 100).length) (calls + 1)
termination_by remaining.length
decreasing_by
  simp only [List.length_take, List.length_drop] at *
  omega

/-- `countSearchItems(octokit, query)`: total matching items and the
number of paginated calls, for a query whose full result set is `items`. -/
def countSearchItems (items : List Unit) : Nat × Nat :=
  countSearchGo items 0 0

/-! ## `getAllStats` of `retro-stats-gif.js` -/

/-- The `ActivityStats` record returned by `getAllStats` in the
80-column variant. -/
structure Stats80 where
  totalCommits7d : Nat
  repoMaisAtivo : String
  totalPRs7d : Nat
  totalIssues7d : Nat
  linguagemMaisUsada : String
  segundaLinguagemMaisUsada : String
  terceiraLinguagemMaisUsada : String
  quartaLinguagemMaisUsada : String
  totalRepos : Nat
  reposPublicos : Nat
  reposPrivados : Nat
  totalStars : Nat
  totalForks : Nat
  userCreatedAt : String
deriving Repr, DecidableEq

/-- Embedding of `getAllStats` from `retro-stats-gif.js`.  The API oracle
consists of the full repository listing `allRepos`, the user-profile
lookup result (the formatted creation date, or an error — substituted by
`'N/A'`), and the full search result sets behind the PR and issue
queries. -/
def getAllStats80 (allRepos : List Repo) (userLookup : Except ApiError String)
    (prItems issueItems : List Unit) : Stats80 :=
  let userCreatedAt :=
    match userLookup with
    | .ok d => d
    | .error _ => "N/A"
  let loop := repoLoopGif allRepos
  let ranking := rank4 loop.languageTotals
  { totalCommits7d := loop.totalCommits7d
    repoMaisAtivo := loop.repoMaisAtivo
    totalPRs7d := (countSearchItems prItems).1
    totalIssues7d := (countSearchItems issueItems).1
    linguagemMaisUsada := ranking.linguagemMaisUsada
    segundaLinguagemMaisUsada := ranking.segundaLinguagemMaisUsada
    terceiraLinguagemMaisUsada := ranking.terceiraLinguagemMaisUsada
    quartaLinguagemMaisUsada := ranking.quartaLinguagemMaisUsada
    totalRepos := allRepos.length
    reposPublicos := (allRepos.filter (fun repo => !repo.isPrivate)).length
    reposPrivados := (allRepos.filter (fun repo => repo.isPrivate)).length
    totalStars := allRepos.foldl (fun acc repo => acc + repo.stargazers_count) 0
    totalForks := allRepos.foldl (fun acc repo => acc + repo.forks_count) 0
    userCreatedAt := userCreatedAt }

/-- The most-active tracking of the repo loop, projected onto the pair
(`repoMaisAtivo`, `maxCommitsNoRepo`) it operates on: fold over the
(name, commit count) pairs, reassigning only on a strictly greater
count. -/
def bestGo (best : String × Nat) (l : List (String × Nat)) : String × Nat :=
  l.foldl (fun st r => if r.2 > st.2 then r else st) best

/-- Per-repository (name, 7-day commit count) pairs, in listing order. -/
def commitCounts (repos : List Repo) : List (String × Nat) :=
  repos.map fun r => (r.name, countCommitsLast7DaysGif r.commitPages)

/-- Largest commit count of a listing (0 when empty). -/
def maxCount (l : List (String × Nat)) : Nat :=
  l.foldr (fun r acc => max r.2 acc) 0

/-! ## Frame-stream generator of `generateGif` -/

/-- Kind tag instrumenting each emitted frame: a per-character typing
frame, an end-of-line pause frame, or a final hold frame. -/
inductive FrameKind where
  | typing
  | pause
  | hold
deriving Repr, DecidableEq

/-- Frames produced while typing one line: `acc` is the part of the line
typed so far (`typedLines[i]`), `done` the fully typed lines above,
`restCount` the number of still-empty lines below; each consumed
character appends to `acc` and emits one frame of the whole panel. -/
def charFramesGo (done : List String) (restCount : Nat) (acc : String) :
    List Char → List (FrameKind × List String)
  | [] => []
  | c :: cs =>
    (FrameKind.typing, done ++ [acc.push c] ++ List.replicate restCount "")
      :: charFramesGo done restCount (acc.push c) cs

/-- The typing loop of `generateGif`, parameterised by the number of
pause frames emitted after each completed line (3 in the 39-column
variant, 1 in the 80-column variant). -/
def generateFrames (pauseCount : Nat) (done : List String) :
    List String → List (FrameKind × List String)
  | [] => []
  | line :: rest =>
    charFramesGo done rest.length "" line.data
      ++ List.replicate pauseCount
          (FrameKind.pause, done ++ [line] ++ List.replicate rest.length "")
      ++ generateFrames pauseCount (done ++ [line]) rest

/-- Frame stream of `generateGif` in the 39-column variant: per-character
typing frames, 3 pause frames per completed line, and
`ceil(END_DELAY / DELAY) = ceil(2000 / 100) = 20` hold frames of the
fully typed panel. -/
def generateGifFramesP0 (asciiLines : List String) : List (FrameKind × List String) :=
  generateFrames 3 [] asciiLines ++ List.replicate 20 (FrameKind.hold, asciiLines)

/-- Frame stream of `generateGif` in the 80-column variant:
per-character typing frames (each line's character delay is
`LINE_DURATION / length`), one pause frame per completed line, and one
final hold frame carrying `END_DELAY`. -/
def generateGifFrames80 (asciiLines : List String) : List (FrameKind × List String) :=
  generateFrames 1 [] asciiLines ++ [(FrameKind.hold, asciiLines)]

/-- First `j` characters of a line. -/
def strTake (s : String) (j : Nat) : String := String.mk (s.data.take j)

/-- A well-formed partially-typed panel state: the lines before index `i`
fully typed, line `i` showing its first `j` characters, the lines after
`i` empty. -/
def snapshot (lines : List String) (i j : Nat) : List String :=
  lines.take i ++ (lines[i]?.toList.map fun l => strTake l j)
    ++ List.replicate (lines.length - i - 1) ""

/-- One panel line grows into another when the former is an initial
segment of the latter. -/
def growsInto (a b : String) : Prop := ∃ t, b = a ++ t

/-- Pointwise growth between two frames: every line of the first is an
initial segment of the corresponding line of the second. -/
def frameGrows (f g : List String) : Prop := List.Forall₂ growsInto f g

/-! ## The `asciiLines` panel of `retro-stats-gif.js` `main` -/

/-- The `asciiLines` array of `retro-stats-gif.js`: the full 80-column
panel as a function of the aggregated stats and the `dataAgora` timestamp
string; `none` when any row or title formatter fails (negative repeat). -/
def asciiLines80 (stats : Stats80) (dataAgora : String) : Option (List String) :=
  match criarLinhaTitulo LARGURA_LINHA "Estatísticas dos últimos 7 dias",
        formatarLinha LARGURA_LINHA "Commits:" (toString stats.totalCommits7d),
        formatarLinha LARGURA_LINHA "PRs criadas:" (toString stats.totalPRs7d),
        formatarLinha LARGURA_LINHA "Issues abertas:" (toString stats.totalIssues7d),
        formatarLinha LARGURA_LINHA "Repositório + ativo:" stats.repoMaisAtivo,
        criarLinhaTitulo LARGURA_LINHA "Estatísticas Gerais",
        formatarLinha LARGURA_LINHA "Total de repositórios:" (toString stats.totalRepos),
        formatarLinha LARGURA_LINHA "Repositórios públicos:" (toString stats.reposPublicos),
        formatarLinha LARGURA_LINHA "Repositórios privados:" (toString stats.reposPrivados),
        formatarLinha LARGURA_LINHA "Total de stars:" (toString stats.totalStars),
        formatarLinha LARGURA_LINHA "Total de forks:" (toString stats.totalForks),
        formatarLinha LARGURA_LINHA "Conta criada em:" stats.userCreatedAt,
        criarLinhaTitulo LARGURA_LINHA "Linguagens Mais Usadas",
        formatarLinha LARGURA_LINHA "Linguagem + usada:" stats.linguagemMaisUsada,
        formatarLinha LARGURA_LINHA "2ª linguagem + usada:" stats.segundaLinguagemMaisUsada,
        formatarLinha LARGURA_LINHA "3ª linguagem + usada:" stats.terceiraLinguagemMaisUsada,
        formatarLinha LARGURA_LINHA "4ª linguagem + usada:" stats.quartaLinguagemMaisUsada with
  | some titulo1, some l1, some l2, some l3, some l4, some titulo2, some l5, some l6,
    some l7, some l8, some l9, some l10, some titulo3, some l11, some l12, some l13,
    some l14 =>
    some [linhaSuperior, titulo1, linhaSeparadora,
          l1, l2, l3, l4,
          linhaSeparadora, titulo2, linhaSeparadora,
          l5, l6, l7, l8, l9, l10,
          linhaSeparadora, titulo3, linhaSeparadora,
          l11, l12, l13, l14,
          linhaInferior,
          " Last update: " ++ dataAgora ++ " "]
  | _, _, _, _, _, _, _, _, _, _, _, _, _, _, _, _, _ => none

/-- Concrete repository with one commit page of one item (count 1). -/
def repoAlpha : Repo := ⟨"alpha", false, 0, 0, [Except.ok [()]], Except.ok [("Python", 1500)]⟩

/-- Second concrete repository, also with commit count 1. -/
def repoBeta : Repo := ⟨"beta", true, 2, 1, [Except.ok [()]], Except.ok [("JavaScript", 1000)]⟩

/-- Concrete repository whose commit listing fails with a server error
while its language call succeeds. -/
def repoFalha : Repo := ⟨"falha", false, 0, 0, [Except.error ⟨500⟩], Except.ok [("Python", 1500)]⟩

/-! ## Theorems -/

@[simp] theorem spaces_length (n : Nat) : (spaces n).length = n := by
  simp [spaces, repeatChar]

/-- C2 (counterexample): the claim that the row padding
`width − label.length − value.length − 4` never goes negative fails: the
row label `"Repositório + ativo:"` (20 characters) together with a
60-character repository-name value exceeds the 80-column width, the
padding count is negative, and `" ".repeat` throws (modelled: `none`). -/
theorem claim2_counterexample :
    formatarLinha 80 "Repositório + ativo:"
      "aaaaaaaaaaaaaaaaaaaaaaaaaaaaaaaaaaaaaaaaaaaaaaaaaaaaaaaaaaaa" = none := by
  decide

/-- C2 (amended): whenever `label.length + value.length + 4 ≤ width`, the
padding is nonnegative and `formatarLinha` produces a well-formed line of
exactly the configured width; outside that range the computation fails
(unguarded negative repeat count), as witnessed by the counterexample. -/
theorem claim2_padding_safety (largura : Nat) (texto valor : String)
    (h : texto.length + valor.length + 4 ≤ largura) :
    ∃ linha, formatarLinha largura texto valor = some linha ∧ linha.length = largura := by
  unfold formatarLinha
  have hnn : ¬ ((largura : Int) - texto.length - valor.length - 4 < 0) := by omega
  rw [if_neg hnn]
  refine ⟨_, rfl, ?_⟩
  have h2 : ("│ " : String).length = 2 := by decide
  have h3 : (" │" : String).length = 2 := by decide
  simp only [String.length_append, spaces_length, h2, h3]
  omega

/-- Witness for C2 (amended) at a concrete in-range label/value pair. -/
theorem claim2_padding_safety_witness :
    ∃ linha, formatarLinha 80 "Commits:" "12" = some linha ∧ linha.length = 80 :=
  claim2_padding_safety 80 "Commits:" "12" (by decide)

/-- C6: every border, separator and title line of both panel variants has
exactly the configured width: the three programmatically built border
lines and the three `criarLinhaTitulo` titles of the 80-column variant
measure 80 characters, and the four hard-coded border/title literals of
the 39-column variant measure 39 characters. -/
theorem claim6_panel_width_exact :
    linhaSuperior.length = LARGURA_LINHA
    ∧ linhaSeparadora.length = LARGURA_LINHA
    ∧ linhaInferior.length = LARGURA_LINHA
    ∧ (criarLinhaTitulo LARGURA_LINHA "Estatísticas dos últimos 7 dias").map String.length
        = some LARGURA_LINHA
    ∧ (criarLinhaTitulo LARGURA_LINHA "Estatísticas Gerais").map String.length
        = some LARGURA_LINHA
    ∧ (criarLinhaTitulo LARGURA_LINHA "Linguagens Mais Usadas").map String.length
        = some LARGURA_LINHA
    ∧ linha39Top.length = 39
    ∧ linha39Titulo.length = 39
    ∧ linha39Sep.length = 39
    ∧ linha39Bottom.length = 39 := by
  decide

/-- C10: on an account whose repository listing returns zero repositories,
`getGitHubData` dereferences the first element of the empty listing
unconditionally, so the run aborts with a non-zero exit status (modelled
as `Except.error ()`) instead of producing a panel. -/
theorem claim10_empty_listing_aborts :
    getGitHubData ([] : List RepoInfo) = none
    ∧ ∀ dataAtual : String, runRetroStats [] dataAtual = Except.error () := by
  exact ⟨rfl, fun _ => rfl⟩

/-- C9: the aggregated counts always satisfy
`totalRepos = publicRepos + privateRepos` — every repository of the
listing is counted exactly once as either public or private according to
its `private` flag. -/
theorem claim9_repo_count_partition (allRepos : List Repo)
    (userLookup : Except ApiError String) (prItems issueItems : List Unit) :
    (getAllStats80 allRepos userLookup prItems issueItems).reposPublicos
      + (getAllStats80 allRepos userLookup prItems issueItems).reposPrivados
      = (getAllStats80 allRepos userLookup prItems issueItems).totalRepos := by
  simp only [getAllStats80]
  induction allRepos with
  | nil => rfl
  | cons r rs ih =>
    by_cases h : r.isPrivate <;>
      simp [List.filter_cons, h] at ih ⊢ <;> omega

theorem countSearchGo_spec (n : Nat) : ∀ items : List Unit, items.length ≤ n →
    ∀ total calls, countSearchGo items total calls
      = (total + items.length, calls + items.length / 100 + 1) := by
  induction n with
  | zero =>
    intro items h total calls
    rw [countSearchGo]
    have h0 : items.length = 0 := by omega
    simp [List.length_take, h0]
  | succ n ih =>
    intro items h total calls
    rw [countSearchGo]
    by_cases hl : (items.take 100).length < 100
    · rw [if_pos hl]
      simp only [List.length_take] at hl ⊢
      refine Prod.ext ?_ ?_ <;> simp <;> omega
    · rw [if_neg hl]
      simp only [List.length_take] at hl
      have h100 : 100 ≤ items.length := by omega
      rw [ih (items.drop 100) (by simp [List.length_drop]; omega)]
      simp only [List.length_take, List.length_drop]
      refine Prod.ext ?_ ?_ <;> simp <;> omega

/-- C5: the search counter sums the item counts over successive pages of
size 100 and stops at the first page returning fewer than 100 items, so
over a result set of `n` items it returns `n` after exactly
`n / 100 + 1` paginated calls; in particular 250 items arrive across 3
pages of 100/100/50 and yield `total = 250` after exactly 3 calls. -/
theorem claim5_search_counter_pagination (items : List Unit) :
    countSearchItems items = (items.length, items.length / 100 + 1)
    ∧ countSearchItems (List.replicate 250 ()) = (250, 3) := by
  constructor
  · have h := countSearchGo_spec items.length items le_rfl 0 0
    simpa [countSearchItems] using h
  · have h := countSearchGo_spec 250 (List.replicate 250 ())
      (le_of_eq (List.length_replicate 250 ())) 0 0
    unfold countSearchItems
    rw [h, List.length_replicate]

theorem bestGo_append (s : String × Nat) (l1 l2 : List (String × Nat)) :
    bestGo s (l1 ++ l2) = bestGo (bestGo s l1) l2 := by
  simp [bestGo, List.foldl_append]

theorem bestGo_snd_mono (l : List (String × Nat)) : ∀ s : String × Nat, s.2 ≤ (bestGo s l).2 := by
  induction l with
  | nil => intro s; exact le_rfl
  | cons x xs ih =>
    intro s
    show s.2 ≤ (bestGo (if x.2 > s.2 then x else s) xs).2
    by_cases h : x.2 > s.2
    · rw [if_pos h]; exact le_trans (le_of_lt h) (ih x)
    · rw [if_neg h]; exact ih s

theorem bestGo_skip (s x : String × Nat) (l : List (String × Nat)) (h : x.2 ≤ s.2) :
    bestGo s (x :: l) = bestGo s l := by
  show bestGo (if x.2 > s.2 then x else s) l = bestGo s l
  rw [if_neg (not_lt.mpr h)]

theorem bestGo_after_elem (s a : String × Nat) (mid : List (String × Nat)) :
    a.2 ≤ (bestGo s (a :: mid)).2 := by
  show a.2 ≤ (bestGo (if a.2 > s.2 then a else s) mid).2
  by_cases h : a.2 > s.2
  · rw [if_pos h]; exact bestGo_snd_mono mid a
  · rw [if_neg h]; exact le_trans (not_lt.mp h) (bestGo_snd_mono mid s)

theorem bestGo_tie_skip (s : String × Nat) (pre mid post : List (String × Nat))
    (a b : String × Nat) (hab : a.2 = b.2) :
    bestGo s (pre ++ a :: mid ++ b :: post) = bestGo s (pre ++ a :: mid ++ post) := by
  rw [bestGo_append, bestGo_append, bestGo_append, bestGo_append]
  exact bestGo_skip _ b post (by rw [← hab]; exact bestGo_after_elem _ a mid)

theorem bestGo_const_of_le (l : List (String × Nat)) :
    ∀ (n : String) (m : Nat), maxCount l ≤ m → bestGo (n, m) l = (n, m) := by
  induction l with
  | nil => intro n m _; rfl
  | cons x xs ih =>
    intro n m h
    have hmax : max x.2 (maxCount xs) ≤ m := h
    rw [bestGo_skip _ x _ (by omega)]
    exact ih n m (by omega)

theorem bestGo_finds_first (l : List (String × Nat)) :
    ∀ (n : String) (m : Nat) (M : Nat), M = maxCount l → m < M →
    ∃ r, l.find? (fun x => decide (M ≤ x.2)) = some r
      ∧ bestGo (n, m) l = r ∧ r.2 = M := by
  induction l with
  | nil =>
    intro n m M hM hm
    exact absurd hm (by simp [maxCount] at hM; omega)
  | cons x xs ih =>
    intro n m M hM hm
    have hM' : M = max x.2 (maxCount xs) := hM
    by_cases hx : M ≤ x.2
    · have hxM : x.2 = M := by omega
      refine ⟨x, ?_, ?_, hxM⟩
      · exact List.find?_cons_of_pos _ (by simpa using hx)
      · show bestGo (if x.2 > m then x else (n, m)) xs = x
        rw [if_pos (by omega)]
        have := bestGo_const_of_le xs x.1 x.2 (by omega)
        simpa using this
    · have hxlt : x.2 < M := not_le.mp hx
      have hMxs : M = maxCount xs := by
        rcases max_choice x.2 (maxCount xs) with hc | hc <;> omega
      have hfind : (fun x => decide (M ≤ x.2)) x = false := by simpa using hx
      by_cases hxm : x.2 > m
      · obtain ⟨r, hr1, hr2, hr3⟩ := ih x.1 x.2 M hMxs hxlt
        refine ⟨r, ?_, ?_, hr3⟩
        · rw [List.find?_cons_of_neg _ (by simpa using hx)]
          exact hr1
        · show bestGo (if x.2 > m then x else (n, m)) xs = r
          rw [if_pos hxm]
          simpa using hr2
      · obtain ⟨r, hr1, hr2, hr3⟩ := ih n m M hMxs hm
        refine ⟨r, ?_, ?_, hr3⟩
        · rw [List.find?_cons_of_neg _ (by simpa using hx)]
          exact hr1
        · show bestGo (if x.2 > m then x else (n, m)) xs = r
          rw [if_neg hxm]
          exact hr2

theorem repoStepGif_best (st : LoopState) (repo : Repo) :
    ((repoStepGif st repo).repoMaisAtivo, (repoStepGif st repo).maxCommitsNoRepo)
      = (if countCommitsLast7DaysGif repo.commitPages > st.maxCommitsNoRepo
         then (repo.name, countCommitsLast7DaysGif repo.commitPages)
         else (st.repoMaisAtivo, st.maxCommitsNoRepo)) := by
  unfold repoStepGif
  cases hL : repo.languages <;>
    by_cases h : countCommitsLast7DaysGif repo.commitPages > st.maxCommitsNoRepo <;>
    simp [h]

theorem repoLoopGif_best (repos : List Repo) : ∀ st : LoopState,
    ((repos.foldl repoStepGif st).repoMaisAtivo, (repos.foldl repoStepGif st).maxCommitsNoRepo)
      = bestGo (st.repoMaisAtivo, st.maxCommitsNoRepo) (commitCounts repos) := by
  induction repos with
  | nil => intro st; rfl
  | cons r rs ih =>
    intro st
    show ((rs.foldl repoStepGif (repoStepGif st r)).repoMaisAtivo,
          (rs.foldl repoStepGif (repoStepGif st r)).maxCommitsNoRepo)
        = bestGo (st.repoMaisAtivo, st.maxCommitsNoRepo)
            ((r.name, countCommitsLast7DaysGif r.commitPages) :: commitCounts rs)
    rw [ih (repoStepGif st r)]
    show bestGo ((repoStepGif st r).repoMaisAtivo, (repoStepGif st r).maxCommitsNoRepo)
          (commitCounts rs)
        = bestGo (if (r.name, countCommitsLast7DaysGif r.commitPages).2
                      > (st.repoMaisAtivo, st.maxCommitsNoRepo).2
                  then (r.name, countCommitsLast7DaysGif r.commitPages)
                  else (st.repoMaisAtivo, st.maxCommitsNoRepo)) (commitCounts rs)
    rw [repoStepGif_best]

theorem getAllStats80_repoMaisAtivo (repos : List Repo) (userLookup : Except ApiError String)
    (prItems issueItems : List Unit) :
    (getAllStats80 repos userLookup prItems issueItems).repoMaisAtivo
      = (bestGo ("N/A", 0) (commitCounts repos)).1 := by
  have h := repoLoopGif_best repos initLoopState
  have h1 : (repoLoopGif repos).repoMaisAtivo = (bestGo ("N/A", 0) (commitCounts repos)).1 := by
    have := congrArg Prod.fst h
    simpa [repoLoopGif, initLoopState] using this
  simpa [getAllStats80] using h1

/-- C7: the aggregator's most-active-repository tracking is
first-match-wins.  First conjunct: a later repository whose 7-day commit
count equals that of an earlier one never reassigns the slot — deleting
it does not change the reported repository.  Second conjunct: whenever
some repository has a positive commit count, the reported repository is
exactly the first one (in listing order) attaining the maximum count. -/
theorem claim7_most_active_tiebreak (pre mid post : List Repo) (a b : Repo)
    (userLookup : Except ApiError String) (prItems issueItems : List Unit)
    (hab : countCommitsLast7DaysGif a.commitPages = countCommitsLast7DaysGif b.commitPages) :
    (getAllStats80 (pre ++ a :: mid ++ b :: post) userLookup prItems issueItems).repoMaisAtivo
      = (getAllStats80 (pre ++ a :: mid ++ post) userLookup prItems issueItems).repoMaisAtivo
    ∧ ∀ repos : List Repo, 0 < maxCount (commitCounts repos) →
        ∃ r, (commitCounts repos).find?
              (fun x => decide (maxCount (commitCounts repos) ≤ x.2)) = some r
          ∧ (getAllStats80 repos userLookup prItems issueItems).repoMaisAtivo = r.1
          ∧ r.2 = maxCount (commitCounts repos) := by
  constructor
  · rw [getAllStats80_repoMaisAtivo, getAllStats80_repoMaisAtivo]
    have hcc1 : commitCounts (pre ++ a :: mid ++ b :: post)
        = commitCounts pre ++ (a.name, countCommitsLast7DaysGif a.commitPages)
            :: commitCounts mid ++ (b.name, countCommitsLast7DaysGif b.commitPages)
            :: commitCounts post := by
      simp [commitCounts]
    have hcc2 : commitCounts (pre ++ a :: mid ++ post)
        = commitCounts pre ++ (a.name, countCommitsLast7DaysGif a.commitPages)
            :: commitCounts mid ++ commitCounts post := by
      simp [commitCounts]
    rw [hcc1, hcc2]
    exact congrArg Prod.fst (bestGo_tie_skip ("N/A", 0) _ _ _ _ _ hab)
  · intro repos hmax
    obtain ⟨r, h1, h2, h3⟩ :=
      bestGo_finds_first (commitCounts repos) "N/A" 0 (maxCount (commitCounts repos)) rfl hmax
    exact ⟨r, h1, by rw [getAllStats80_repoMaisAtivo, h2], h3⟩

/-- Witness for C7 at two concrete repositories with equal commit counts:
the earlier one is reported. -/
theorem claim7_most_active_tiebreak_witness :
    (getAllStats80 ([] ++ repoAlpha :: [] ++ repoBeta :: []) (Except.ok "2019-01-01") [] []).repoMaisAtivo
      = (getAllStats80 ([] ++ repoAlpha :: [] ++ []) (Except.ok "2019-01-01") [] []).repoMaisAtivo :=
  (claim7_most_active_tiebreak [] [] [] repoAlpha repoBeta (Except.ok "2019-01-01") [] [] rfl).1

theorem countCommitsGoGif_zero (pages : List (Except ApiError (List Unit))) :
    ∀ (t t' : Nat) (e : ApiError),
      countCommitsGoP0 pages t = .error e → countCommitsGoGif pages t' = 0 := by
  induction pages with
  | nil =>
    intro t t' e h
    exact absurd h (by simp [countCommitsGoP0])
  | cons p rest ih =>
    intro t t' e h
    match p with
    | .error e' => simp [countCommitsGoGif]
    | .ok items =>
      simp only [countCommitsGoP0] at h
      simp only [countCommitsGoGif]
      by_cases hl : items.length < 100
      · rw [if_pos hl] at h
        exact absurd h (by simp)
      · rw [if_neg hl] at h
        rw [if_neg hl]
        exact ih _ _ e h

theorem countCommitsGif_zero (pages : List (Except ApiError (List Unit))) (e : ApiError)
    (h : countCommitsLast7DaysP0 pages = .error e) :
    countCommitsLast7DaysGif pages = 0 :=
  countCommitsGoGif_zero pages 0 0 e h

theorem repoStepGif_emptyPages (st : LoopState) (r : Repo)
    (h : countCommitsLast7DaysGif r.commitPages = 0) :
    repoStepGif st r = repoStepGif st { r with commitPages := [] } := by
  have h' : countCommitsGoGif r.commitPages 0 = 0 := h
  cases hL : r.languages <;>
    simp [repoStepGif, countCommitsLast7DaysGif, h', countCommitsGoGif, hL]

theorem repoLoopGoP0_error (pre : List Repo) :
    ∀ (st : LoopState) (r : Repo) (post : List Repo) (e : ApiError),
      countCommitsLast7DaysP0 r.commitPages = .error e →
      ∃ e', repoLoopGoP0 st (pre ++ r :: post) = .error e' := by
  induction pre with
  | nil =>
    intro st r post e h
    refine ⟨e, ?_⟩
    simp only [List.nil_append, repoLoopGoP0, h]
  | cons p ps ih =>
    intro st r post e h
    simp only [List.cons_append, repoLoopGoP0]
    cases hp : countCommitsLast7DaysP0 p.commitPages with
    | error e' => exact ⟨e', rfl⟩
    | ok c => exact ih _ r post e h

/-- C3 (amended): a repository whose commit listing fails outright
contributes 0 commits in the gif variant (so it never becomes the
most-active repository) and the gif aggregation completes with exactly
the same `ActivityStats` as if the repository had no recent commits at
all; its language contribution, however, is governed solely by the
separate language call (see the counterexample), and in the 39-column
variant the unguarded failure aborts the whole aggregation run. -/
theorem claim3_commit_failure_policy (pre post : List Repo) (r : Repo)
    (userLookup : Except ApiError String) (prItems issueItems : List Unit) (e : ApiError)
    (h : countCommitsLast7DaysP0 r.commitPages = .error e) :
    countCommitsLast7DaysGif r.commitPages = 0
    ∧ getAllStats80 (pre ++ r :: post) userLookup prItems issueItems
        = getAllStats80 (pre ++ { r with commitPages := [] } :: post) userLookup prItems issueItems
    ∧ ∃ e', repoLoopP0 (pre ++ r :: post) = .error e' := by
  have h0 : countCommitsLast7DaysGif r.commitPages = 0 := countCommitsGif_zero _ e h
  refine ⟨h0, ?_, repoLoopGoP0_error pre initLoopState r post e h⟩
  have hloop : repoLoopGif (pre ++ r :: post)
      = repoLoopGif (pre ++ { r with commitPages := [] } :: post) := by
    unfold repoLoopGif
    rw [List.foldl_append, List.foldl_append]
    simp only [List.foldl_cons]
    rw [repoStepGif_emptyPages _ _ h0]
  simp only [getAllStats80, hloop]
  congr 1 <;>
    by_cases hp : r.isPrivate <;>
      simp [List.filter_append, List.filter_cons, List.foldl_append, List.length_append, hp]

/-- C3 (counterexample): a repository whose commit listing fails outright
(server error on the first page) still contributes its full language
breakdown in the gif variant — the language call is independent of the
commit failure — and in the 39-column variant the same repository aborts
the aggregation instead of completing it. -/
theorem claim3_counterexample :
    countCommitsLast7DaysP0 repoFalha.commitPages = Except.error ⟨500⟩
    ∧ (repoLoopGif [repoFalha]).languageTotals = [("Python", 1500)]
    ∧ repoLoopP0 [repoFalha] = Except.error ⟨500⟩ :=
  ⟨rfl, rfl, rfl⟩

/-- Witness for C3 (amended) at the concrete failing repository. -/
theorem claim3_commit_failure_policy_witness :
    countCommitsLast7DaysGif repoFalha.commitPages = 0
    ∧ getAllStats80 ([] ++ repoFalha :: []) (Except.ok "2019-01-01") [] []
        = getAllStats80 ([] ++ { repoFalha with commitPages := [] } :: [])
            (Except.ok "2019-01-01") [] []
    ∧ ∃ e', repoLoopP0 ([] ++ repoFalha :: []) = .error e' :=
  claim3_commit_failure_policy [] [] repoFalha (Except.ok "2019-01-01") [] [] ⟨500⟩ rfl

theorem insertRanked_perm (e : String × Nat) (l : List (String × Nat)) :
    (insertRanked e l).Perm (e :: l) := by
  induction l with
  | nil => exact List.Perm.refl _
  | cons x xs ih =>
    simp only [insertRanked]
    by_cases h : e.2 > x.2
    · rw [if_pos h]
    · rw [if_neg h]
      exact (ih.cons x).trans (List.Perm.swap e x xs)

theorem mem_insertRanked {y e : String × Nat} {l : List (String × Nat)} :
    y ∈ insertRanked e l ↔ y = e ∨ y ∈ l := by
  rw [(insertRanked_perm e l).mem_iff]
  simp

theorem insertRanked_pairwise (e : String × Nat) (l : List (String × Nat))
    (h : l.Pairwise (fun a b => b.2 ≤ a.2)) :
    (insertRanked e l).Pairwise (fun a b => b.2 ≤ a.2) := by
  induction l with
  | nil => simp [insertRanked]
  | cons x xs ih =>
    rw [List.pairwise_cons] at h
    obtain ⟨hx, hxs⟩ := h
    simp only [insertRanked]
    by_cases hcmp : e.2 > x.2
    · rw [if_pos hcmp]
      refine List.Pairwise.cons ?_ (List.Pairwise.cons hx hxs)
      intro y hy
      rcases List.mem_cons.mp hy with rfl | hy'
      · exact le_of_lt hcmp
      · exact le_trans (hx y hy') (le_of_lt hcmp)
    · rw [if_neg hcmp]
      refine List.Pairwise.cons ?_ (ih hxs)
      intro y hy
      rcases mem_insertRanked.mp hy with rfl | hy'
      · exact not_lt.mp hcmp
      · exact hx y hy'

theorem take_cons_take (x : String × Nat) (l : List (String × Nat)) (k : Nat) :
    (x :: l.take k).take k = (x :: l).take k := by
  cases k with
  | zero => rfl
  | succ m =>
    rw [List.take_succ_cons, List.take_succ_cons, List.take_take,
      Nat.min_eq_left (Nat.le_succ m)]

theorem take_insertRanked (e : String × Nat) (l : List (String × Nat)) : ∀ k : Nat,
    (insertRanked e (l.take k)).take k = (insertRanked e l).take k := by
  induction l with
  | nil => intro k; simp
  | cons x xs ih =>
    intro k
    cases k with
    | zero => rfl
    | succ m =>
      rw [List.take_succ_cons]
      simp only [insertRanked]
      by_cases h : e.2 > x.2
      · rw [if_pos h, if_pos h, List.take_succ_cons, List.take_succ_cons, take_cons_take]
      · rw [if_neg h, if_neg h, List.take_succ_cons, List.take_succ_cons, ih m]

theorem topK_eq_take_sortDesc (k : Nat) (entries : List (String × Nat)) :
    topK k entries = (sortDesc entries).take k := by
  have main : ∀ (es acc : List (String × Nat)),
      es.foldl (fun a e => (insertRanked e a).take k) (acc.take k)
        = (es.foldl (fun a e => insertRanked e a) acc).take k := by
    intro es
    induction es with
    | nil => intro acc; rfl
    | cons e es ih =>
      intro acc
      simp only [List.foldl_cons]
      rw [take_insertRanked]
      exact ih (insertRanked e acc)
  have h := main entries []
  rw [List.take_nil] at h
  exact h

theorem sortDesc_pairwise (entries : List (String × Nat)) :
    (sortDesc entries).Pairwise (fun a b => b.2 ≤ a.2) := by
  have main : ∀ (es acc : List (String × Nat)), acc.Pairwise (fun a b => b.2 ≤ a.2) →
      (es.foldl (fun a e => insertRanked e a) acc).Pairwise (fun a b => b.2 ≤ a.2) := by
    intro es
    induction es with
    | nil => intro acc h; exact h
    | cons e es ih => intro acc h; exact ih _ (insertRanked_pairwise e acc h)
  exact main entries [] List.Pairwise.nil

theorem sortDesc_perm (entries : List (String × Nat)) : (sortDesc entries).Perm entries := by
  have main : ∀ (es acc : List (String × Nat)),
      (es.foldl (fun a e => insertRanked e a) acc).Perm (es ++ acc) := by
    intro es
    induction es with
    | nil => intro acc; simp
    | cons e es ih =>
      intro acc
      simp only [List.foldl_cons, List.cons_append]
      refine (ih (insertRanked e acc)).trans ?_
      refine (List.Perm.append_left es (insertRanked_perm e acc)).trans ?_
      exact List.perm_middle
  have h := main entries []
  simpa using h

theorem filter_insertRanked (v : Nat) (e : String × Nat) (l : List (String × Nat))
    (h : l.Pairwise (fun a b => b.2 ≤ a.2)) :
    (insertRanked e l).filter (fun x => x.2 == v)
      = if e.2 = v then l.filter (fun x => x.2 == v) ++ [e]
        else l.filter (fun x => x.2 == v) := by
  induction l with
  | nil =>
    by_cases hv : e.2 = v <;>
      simp [insertRanked, List.filter_cons, beq_iff_eq, hv]
  | cons x xs ih =>
    rw [List.pairwise_cons] at h
    obtain ⟨hx, hxs⟩ := h
    simp only [insertRanked]
    by_cases hcmp : e.2 > x.2
    · rw [if_pos hcmp]
      by_cases hv : e.2 = v
      · have hxsf : (x :: xs).filter (fun y => y.2 == v) = [] := by
          rw [List.filter_eq_nil_iff]
          intro y hy
          rcases List.mem_cons.mp hy with rfl | hy'
          · simp only [beq_iff_eq]; omega
          · have := hx y hy'
            simp only [beq_iff_eq]; omega
        simp [List.filter_cons, beq_iff_eq, hv, hxsf]
      · simp [List.filter_cons, beq_iff_eq, hv]
    · rw [if_neg hcmp]
      by_cases hxv : x.2 = v <;> by_cases hv : e.2 = v <;>
        simp [List.filter_cons, beq_iff_eq, hxv, hv, ih hxs]

theorem filter_sortDesc (entries : List (String × Nat)) (v : Nat) :
    (sortDesc entries).filter (fun x => x.2 == v) = entries.filter (fun x => x.2 == v) := by
  have main : ∀ (es acc : List (String × Nat)), acc.Pairwise (fun a b => b.2 ≤ a.2) →
      (es.foldl (fun a e => insertRanked e a) acc).filter (fun x => x.2 == v)
        = acc.filter (fun x => x.2 == v) ++ es.filter (fun x => x.2 == v) := by
    intro es
    induction es with
    | nil => intro acc h; simp
    | cons e es ih =>
      intro acc h
      simp only [List.foldl_cons]
      rw [ih _ (insertRanked_pairwise e acc h), filter_insertRanked v e acc h]
      by_cases hv : e.2 = v <;> simp [List.filter_cons, hv]
  simpa using main entries [] List.Pairwise.nil

theorem toRank4_nil : toRank4 [] = initRank4 := rfl

theorem toRank4_one (a : String × Nat) :
    toRank4 [a] = ⟨a.1, "N/A", "N/A", "N/A", (a.2 : Int), -1, -1, -1⟩ := rfl

theorem toRank4_two (a b : String × Nat) :
    toRank4 [a, b] = ⟨a.1, b.1, "N/A", "N/A", (a.2 : Int), (b.2 : Int), -1, -1⟩ := rfl

theorem toRank4_three (a b c : String × Nat) :
    toRank4 [a, b, c]
      = ⟨a.1, b.1, c.1, "N/A", (a.2 : Int), (b.2 : Int), (c.2 : Int), -1⟩ := rfl

theorem toRank4_four (a b c d : String × Nat) :
    toRank4 [a, b, c, d]
      = ⟨a.1, b.1, c.1, d.1, (a.2 : Int), (b.2 : Int), (c.2 : Int), (d.2 : Int)⟩ := rfl

theorem rank4Step_toRank4 (l : List (String × Nat)) (e : String × Nat) (h : l.length ≤ 4) :
    rank4Step (toRank4 l) e = toRank4 ((insertRanked e l).take 4) := by
  rcases l with _ | ⟨a, _ | ⟨b, _ | ⟨c, _ | ⟨d, _ | ⟨x, rest⟩⟩⟩⟩⟩
  · simp only [toRank4_nil, initRank4, rank4Step, insertRanked]
    split_ifs <;> first | rfl | (exfalso; omega)
  · simp only [toRank4_one, rank4Step, insertRanked]
    split_ifs <;> first | rfl | (exfalso; omega)
  · simp only [toRank4_two, rank4Step, insertRanked]
    split_ifs <;> first | rfl | (exfalso; omega)
  · simp only [toRank4_three, rank4Step, insertRanked]
    split_ifs <;> first | rfl | (exfalso; omega)
  · simp only [toRank4_four, rank4Step, insertRanked]
    split_ifs <;> first | rfl | (exfalso; omega)
  · exfalso
    simp only [List.length_cons] at h
    omega

theorem rank4_foldl (entries : List (String × Nat)) : ∀ acc : List (String × Nat),
    acc.length ≤ 4 →
    entries.foldl rank4Step (toRank4 acc)
      = toRank4 (entries.foldl (fun a e => (insertRanked e a).take 4) acc) := by
  induction entries with
  | nil => intro acc _; rfl
  | cons e es ih =>
    intro acc h
    simp only [List.foldl_cons]
    rw [rank4Step_toRank4 acc e h]
    exact ih _ (by rw [List.length_take]; exact Nat.min_le_left _ _)

theorem rank4_eq_topK (entries : List (String × Nat)) :
    rank4 entries = toRank4 (topK 4 entries) := by
  unfold rank4 topK
  by_cases h : entries.length > 0
  · rw [if_pos h]
    exact rank4_foldl entries [] (by simp)
  · rw [if_neg h]
    have h0 : entries = [] := List.length_eq_zero.mp (by omega)
    subst h0
    rfl

theorem toRank2_nil : toRank2 [] = initRank2 := rfl

theorem toRank2_one (a : String × Nat) :
    toRank2 [a] = ⟨a.1, "N/A", (a.2 : Int), -1⟩ := rfl

theorem toRank2_two (a b : String × Nat) :
    toRank2 [a, b] = ⟨a.1, b.1, (a.2 : Int), (b.2 : Int)⟩ := rfl

theorem rank2Step_toRank2 (l : List (String × Nat)) (e : String × Nat) (h : l.length ≤ 2) :
    rank2Step (toRank2 l) e = toRank2 ((insertRanked e l).take 2) := by
  rcases l with _ | ⟨a, _ | ⟨b, _ | ⟨x, rest⟩⟩⟩
  · simp only [toRank2_nil, initRank2, rank2Step, insertRanked]
    split_ifs <;> first | rfl | (exfalso; omega)
  · simp only [toRank2_one, rank2Step, insertRanked]
    split_ifs <;> first | rfl | (exfalso; omega)
  · simp only [toRank2_two, rank2Step, insertRanked]
    split_ifs <;> first | rfl | (exfalso; omega)
  · exfalso
    simp only [List.length_cons] at h
    omega

theorem rank2_foldl (entries : List (String × Nat)) : ∀ acc : List (String × Nat),
    acc.length ≤ 2 →
    entries.foldl rank2Step (toRank2 acc)
      = toRank2 (entries.foldl (fun a e => (insertRanked e a).take 2) acc) := by
  induction entries with
  | nil => intro acc _; rfl
  | cons e es ih =>
    intro acc h
    simp only [List.foldl_cons]
    rw [rank2Step_toRank2 acc e h]
    exact ih _ (by rw [List.length_take]; exact Nat.min_le_left _ _)

theorem rank2_eq_topK (entries : List (String × Nat)) :
    rank2 entries = toRank2 (topK 2 entries) := by
  unfold rank2 topK
  by_cases h : entries.length > 0
  · rw [if_pos h]
    exact rank2_foldl entries [] (by simp)
  · rw [if_neg h]
    have h0 : entries = [] := List.length_eq_zero.mp (by omega)
    subst h0
    rfl

/-- C1 (counterexample): with ties among the K largest totals, the
produced ranking is not strictly descending: four distinct languages
with totals 5, 5, 3, 2 put the two equal totals in the first two slots,
so `maxLangValue > secondMaxLangValue` fails. -/
theorem claim1_counterexample :
    (([("A", 5), ("B", 5), ("C", 3), ("D", 2)] : List (String × Nat)).map Prod.fst).Nodup
    ∧ 4 ≤ ([("A", 5), ("B", 5), ("C", 3), ("D", 2)] : List (String × Nat)).length
    ∧ ¬ ((rank4 [("A", 5), ("B", 5), ("C", 3), ("D", 2)]).secondMaxLangValue
          < (rank4 [("A", 5), ("B", 5), ("C", 3), ("D", 2)]).maxLangValue) := by
  decide

/-- C1 (amended): for every language tally, the cascading scan (K = 4 in
the 80-column variant, K = 2 in the 39-column variant) produces exactly
the K largest byte totals in descending — not strictly descending —
order, with the original relative insertion order preserved among equal
totals and correct eviction of the old lowest slot: the slots equal the
first K entries of the stable descending insertion sort `sortDesc`,
which is a sorted (non-strictly), order-stable permutation of the tally. -/
theorem claim1_topk_ranking (entries : List (String × Nat)) :
    rank4 entries = toRank4 ((sortDesc entries).take 4)
    ∧ rank2 entries = toRank2 ((sortDesc entries).take 2)
    ∧ (sortDesc entries).Pairwise (fun a b => b.2 ≤ a.2)
    ∧ (sortDesc entries).Perm entries
    ∧ ∀ v : Nat, (sortDesc entries).filter (fun x => x.2 == v)
        = entries.filter (fun x => x.2 == v) := by
  refine ⟨?_, ?_, sortDesc_pairwise entries, sortDesc_perm entries,
    fun v => filter_sortDesc entries v⟩
  · rw [rank4_eq_topK, topK_eq_take_sortDesc]
  · rw [rank2_eq_topK, topK_eq_take_sortDesc]

@[simp] theorem string_mk_data (s : String) : String.mk s.data = s := rfl

theorem charFramesGo_count (done : List String) (restCount : Nat) (cs : List Char) :
    ∀ acc : String,
    ((charFramesGo done restCount acc cs).filter (fun f => f.1 == FrameKind.typing)).length
      = cs.length := by
  induction cs with
  | nil => intro acc; rfl
  | cons c cs ih =>
    intro acc
    simp only [charFramesGo, List.filter_cons]
    simp [ih]

theorem filter_typing_replicate (n : Nat) (f : List String) (k : FrameKind)
    (hk : k ≠ FrameKind.typing) :
    (List.replicate n (k, f)).filter (fun x => x.1 == FrameKind.typing) = [] := by
  induction n with
  | zero => rfl
  | succ m ih => simp [List.replicate_succ, List.filter_cons, hk, ih]

theorem generateFrames_count (p : Nat) (todo : List String) : ∀ done : List String,
    ((generateFrames p done todo).filter (fun f => f.1 == FrameKind.typing)).length
      = (todo.map String.length).sum := by
  induction todo with
  | nil => intro done; rfl
  | cons line rest ih =>
    intro done
    simp only [generateFrames, List.filter_append, List.length_append]
    rw [charFramesGo_count, filter_typing_replicate _ _ _ (by simp), ih]
    have hlen : line.data.length = line.length := rfl
    simp [hlen]

theorem generateGifFramesP0_count (ls : List String) :
    ((generateGifFramesP0 ls).filter (fun f => f.1 == FrameKind.typing)).length
      = (ls.map String.length).sum := by
  simp only [generateGifFramesP0, List.filter_append, List.length_append]
  rw [generateFrames_count, filter_typing_replicate _ _ _ (by simp)]
  rfl

theorem generateGifFrames80_count (ls : List String) :
    ((generateGifFrames80 ls).filter (fun f => f.1 == FrameKind.typing)).length
      = (ls.map String.length).sum := by
  simp only [generateGifFrames80, List.filter_append, List.length_append]
  rw [generateFrames_count]
  simp [List.filter_cons]

theorem charFramesGo_mem (done : List String) (restCount : Nat) (cs : List Char) :
    ∀ (acc : String) (kf : FrameKind × List String),
    kf ∈ charFramesGo done restCount acc cs →
    ∃ m, m < cs.length
      ∧ kf.2 = done ++ [String.mk (acc.data ++ cs.take (m + 1))]
          ++ List.replicate restCount "" := by
  induction cs with
  | nil =>
    intro acc kf h
    exact absurd h (by simp [charFramesGo])
  | cons c cs ih =>
    intro acc kf h
    rcases List.mem_cons.mp h with rfl | h'
    · refine ⟨0, by simp, ?_⟩
      simp [String.push]
    · obtain ⟨m, hm, heq⟩ := ih (acc.push c) kf h'
      refine ⟨m + 1, by simp only [List.length_cons]; omega, ?_⟩
      rw [heq]
      simp [String.push, List.take_succ_cons]

theorem snapshot_cons (line : String) (rest : List String) (i j : Nat) :
    snapshot (line :: rest) (i + 1) j = line :: snapshot rest i j := by
  simp only [snapshot, List.take_succ_cons, List.getElem?_cons_succ, List.length_cons,
    Nat.add_sub_add_right, List.cons_append]

theorem strTake_length (s : String) : strTake s s.length = s :=
  (congrArg String.mk (List.take_length (l := s.data))).trans rfl

theorem snapshot_line_full (line : String) (rest : List String) :
    snapshot (line :: rest) 0 line.length = line :: List.replicate rest.length "" := by
  simp [snapshot, strTake_length]

theorem snapshot_length_zero (ls : List String) : snapshot ls ls.length 0 = ls := by
  simp [snapshot, List.getElem?_eq_none le_rfl]

theorem generateFrames_mem (p : Nat) (todo : List String) :
    ∀ (done : List String) (kf : FrameKind × List String),
    kf ∈ generateFrames p done todo →
    ∃ i j, i ≤ todo.length ∧ kf.2 = done ++ snapshot todo i j := by
  induction todo with
  | nil =>
    intro done kf h
    exact absurd h (by simp [generateFrames])
  | cons line rest ih =>
    intro done kf h
    simp only [generateFrames, List.mem_append] at h
    rcases h with (hc | hpause) | hrec
    · obtain ⟨m, hm, heq⟩ := charFramesGo_mem done rest.length line.data "" kf hc
      refine ⟨0, m + 1, by omega, ?_⟩
      rw [heq]
      simp [snapshot, strTake]
    · have hk := List.eq_of_mem_replicate hpause
      subst hk
      refine ⟨0, line.length, by omega, ?_⟩
      simp [snapshot_line_full]
    · obtain ⟨i, j, hi, heq⟩ := ih (done ++ [line]) kf hrec
      refine ⟨i + 1, j, by simpa using hi, ?_⟩
      rw [heq, snapshot_cons]
      simp

theorem generateGifFramesP0_mem (ls : List String) (kf : FrameKind × List String)
    (h : kf ∈ generateGifFramesP0 ls) :
    ∃ i j, i ≤ ls.length ∧ kf.2 = snapshot ls i j := by
  simp only [generateGifFramesP0, List.mem_append] at h
  rcases h with h | h
  · obtain ⟨i, j, hi, heq⟩ := generateFrames_mem 3 ls [] kf h
    exact ⟨i, j, hi, by simpa using heq⟩
  · have hk := List.eq_of_mem_replicate h
    subst hk
    exact ⟨ls.length, 0, le_rfl, (snapshot_length_zero ls).symm⟩

theorem generateGifFrames80_mem (ls : List String) (kf : FrameKind × List String)
    (h : kf ∈ generateGifFrames80 ls) :
    ∃ i j, i ≤ ls.length ∧ kf.2 = snapshot ls i j := by
  simp only [generateGifFrames80, List.mem_append, List.mem_singleton] at h
  rcases h with h | h
  · obtain ⟨i, j, hi, heq⟩ := generateFrames_mem 1 ls [] kf h
    exact ⟨i, j, hi, by simpa using heq⟩
  · subst h
    exact ⟨ls.length, 0, le_rfl, (snapshot_length_zero ls).symm⟩

theorem growsInto_refl (a : String) : growsInto a a := ⟨"", (String.append_empty a).symm⟩

theorem growsInto_push (a : String) (c : Char) : growsInto a (a.push c) :=
  ⟨String.singleton c, rfl⟩

theorem frameGrows_refl (f : List String) : frameGrows f f :=
  List.forall₂_same.mpr fun x _ => growsInto_refl x

theorem frameGrows_append {f1 g1 f2 g2 : List String} (h1 : frameGrows f1 g1)
    (h2 : frameGrows f2 g2) : frameGrows (f1 ++ f2) (g1 ++ g2) :=
  List.rel_append h1 h2

theorem chain_cons_replicate (x : List String) (n : Nat) (suffix : List (List String))
    (h : List.Chain' frameGrows (x :: suffix)) :
    List.Chain' frameGrows (x :: (List.replicate n x ++ suffix)) := by
  induction n with
  | zero => simpa using h
  | succ m ih =>
    rw [List.replicate_succ, List.cons_append]
    exact List.chain'_cons.mpr ⟨frameGrows_refl x, ih⟩

theorem chain_charFramesGo (done : List String) (restCount : Nat) (cs : List Char) :
    ∀ (acc : String) (suffix : List (List String)),
    List.Chain' frameGrows
      ((done ++ [String.mk (acc.data ++ cs)] ++ List.replicate restCount "") :: suffix) →
    List.Chain' frameGrows
      ((done ++ [acc] ++ List.replicate restCount "")
        :: ((charFramesGo done restCount acc cs).map Prod.snd ++ suffix)) := by
  induction cs with
  | nil =>
    intro acc suffix h
    simpa [charFramesGo] using h
  | cons c cs ih =>
    intro acc suffix h
    simp only [charFramesGo, List.map_cons, List.cons_append]
    refine List.chain'_cons.mpr ⟨?_, ?_⟩
    · exact frameGrows_append
        (frameGrows_append (frameGrows_refl done)
          (List.Forall₂.cons (growsInto_push acc c) List.Forall₂.nil))
        (frameGrows_refl _)
    · exact ih (acc.push c) suffix (by simpa [String.push, List.append_assoc] using h)

theorem chain_generateFrames (p : Nat) (todo : List String) :
    ∀ (done : List String) (suffix : List (List String)),
    List.Chain' frameGrows ((done ++ todo) :: suffix) →
    List.Chain' frameGrows
      ((done ++ List.replicate todo.length "")
        :: ((generateFrames p done todo).map Prod.snd ++ suffix)) := by
  induction todo with
  | nil =>
    intro done suffix h
    simpa [generateFrames] using h
  | cons line rest ih =>
    intro done suffix h
    have hG := ih (done ++ [line])
      ((List.replicate p (done ++ [line] ++ List.replicate rest.length "")).map id ++ suffix)
    -- reassociate and assemble: typing frames, then pause frames, then the rest
    have hrest := ih (done ++ [line]) suffix (by simpa [List.append_assoc] using h)
    have hP := chain_cons_replicate ((done ++ [line]) ++ List.replicate rest.length "") p
      ((generateFrames p (done ++ [line]) rest).map Prod.snd ++ suffix) hrest
    have hA := chain_charFramesGo done rest.length line.data ""
      (List.replicate p ((done ++ [line]) ++ List.replicate rest.length "")
        ++ ((generateFrames p (done ++ [line]) rest).map Prod.snd ++ suffix))
      (by simpa [List.append_assoc] using hP)
    simpa [generateFrames, List.map_append, List.map_replicate, List.append_assoc,
      List.replicate_succ] using hA

theorem chain_generateGifFramesP0 (ls : List String) :
    List.Chain' frameGrows ((generateGifFramesP0 ls).map Prod.snd) := by
  have base : List.Chain' frameGrows (ls :: (List.replicate 20 ls ++ [])) :=
    chain_cons_replicate ls 20 [] (List.chain'_singleton ls)
  have hmain := chain_generateFrames 3 ls [] (List.replicate 20 ls)
    (by simpa using base)
  have htail := hmain.tail
  simpa [generateGifFramesP0, List.map_append, List.map_replicate] using htail

theorem chain_generateGifFrames80 (ls : List String) :
    List.Chain' frameGrows ((generateGifFrames80 ls).map Prod.snd) := by
  have base : List.Chain' frameGrows (ls :: [ls]) :=
    List.chain'_cons.mpr ⟨frameGrows_refl ls, List.chain'_singleton ls⟩
  have hmain := chain_generateFrames 1 ls [] [ls] (by simpa using base)
  have htail := hmain.tail
  simpa [generateGifFrames80, List.map_append] using htail

/-- C4: the frame-stream generator (both variants) emits exactly one
typing frame per character — the number of typing-tagged frames equals
the sum of the panel line lengths, so 3 lines of lengths 10, 20, 5 give
35 non-hold typing frames — every emitted frame is a well-formed
snapshot (lines above the current line fully typed, the current line a
prefix of itself, lines below empty), and along the stream every line
only grows: consecutive frames are related by pointwise
prefix-extension. -/
theorem claim4_frame_stream (ls : List String) (kf : FrameKind × List String) :
    ((generateGifFramesP0 ls).filter (fun f => f.1 == FrameKind.typing)).length
        = (ls.map String.length).sum
    ∧ ((generateGifFrames80 ls).filter (fun f => f.1 == FrameKind.typing)).length
        = (ls.map String.length).sum
    ∧ (kf ∈ generateGifFramesP0 ls → ∃ i j, i ≤ ls.length ∧ kf.2 = snapshot ls i j)
    ∧ (kf ∈ generateGifFrames80 ls → ∃ i j, i ≤ ls.length ∧ kf.2 = snapshot ls i j)
    ∧ List.Chain' frameGrows ((generateGifFramesP0 ls).map Prod.snd)
    ∧ List.Chain' frameGrows ((generateGifFrames80 ls).map Prod.snd) :=
  ⟨generateGifFramesP0_count ls, generateGifFrames80_count ls,
   generateGifFramesP0_mem ls kf, generateGifFrames80_mem ls kf,
   chain_generateGifFramesP0 ls, chain_generateGifFrames80 ls⟩

/-- Witness for C4 at a concrete two-line panel: the first typing frame
of `["ab", "c"]` shows the one-character prefix of the first line with
the second line still empty, and it is indeed a snapshot. -/
theorem claim4_frame_stream_witness :
    (FrameKind.typing, ["a", ""]) ∈ generateGifFramesP0 ["ab", "c"]
    ∧ ∃ i j, i ≤ (["ab", "c"] : List String).length
        ∧ ((FrameKind.typing, (["a", ""] : List String)) : FrameKind × List String).2
            = snapshot ["ab", "c"] i j := by
  have h := claim4_frame_stream ["ab", "c"] (FrameKind.typing, ["a", ""])
  exact ⟨by decide, h.2.2.1 (by decide)⟩

/-- C8: the panel rendering is a pure function of the `ActivityStats`
value and the configured width: rendering the same stats twice yields
byte-identical `PanelLine` sequences.  The only clock-dependent output is
the trailing free-form "Last update" line, which the data model excludes
from the `PanelLine` sequence (it is not width-constrained); dropping it,
the rendered lines are independent of the timestamp input, so two renders
of the same stats agree byte for byte. -/
theorem claim8_renderer_determinism (stats : Stats80) (t1 t2 : String) :
    (asciiLines80 stats t1).map List.dropLast = (asciiLines80 stats t2).map List.dropLast := by
  unfold asciiLines80
  cases criarLinhaTitulo LARGURA_LINHA "Estatísticas dos últimos 7 dias" with
  | none => rfl
  | some titulo1 =>
  cases formatarLinha LARGURA_LINHA "Commits:" (toString stats.totalCommits7d) with
  | none => rfl
  | some l1 =>
  cases formatarLinha LARGURA_LINHA "PRs criadas:" (toString stats.totalPRs7d) with
  | none => rfl
  | some l2 =>
  cases formatarLinha LARGURA_LINHA "Issues abertas:" (toString stats.totalIssues7d) with
  | none => rfl
  | some l3 =>
  cases formatarLinha LARGURA_LINHA "Repositório + ativo:" stats.repoMaisAtivo with
  | none => rfl
  | some l4 =>
  cases criarLinhaTitulo LARGURA_LINHA "Estatísticas Gerais" with
  | none => rfl
  | some titulo2 =>
  cases formatarLinha LARGURA_LINHA "Total de repositórios:" (toString stats.totalRepos) with
  | none => rfl
  | some l5 =>
  cases formatarLinha LARGURA_LINHA "Repositórios públicos:" (toString stats.reposPublicos) with
  | none => rfl
  | some l6 =>
  cases formatarLinha LARGURA_LINHA "Repositórios privados:" (toString stats.reposPrivados) with
  | none => rfl
  | some l7 =>
  cases formatarLinha LARGURA_LINHA "Total de stars:" (toString stats.totalStars) with
  | none => rfl
  | some l8 =>
  cases formatarLinha LARGURA_LINHA "Total de forks:" (toString stats.totalForks) with
  | none => rfl
  | some l9 =>
  cases formatarLinha LARGURA_LINHA "Conta criada em:" stats.userCreatedAt with
  | none => rfl
  | some l10 =>
  cases criarLinhaTitulo LARGURA_LINHA "Linguagens Mais Usadas" with
  | none => rfl
  | some titulo3 =>
  cases formatarLinha LARGURA_LINHA "Linguagem + usada:" stats.linguagemMaisUsada with
  | none => rfl
  | some l11 =>
  cases formatarLinha LARGURA_LINHA "2ª linguagem + usada:" stats.segundaLinguagemMaisUsada with
  | none => rfl
  | some l12 =>
  cases formatarLinha LARGURA_LINHA "3ª linguagem + usada:" stats.terceiraLinguagemMaisUsada with
  | none => rfl
  | some l13 =>
  cases formatarLinha LARGURA_LINHA "4ª linguagem + usada:" stats.quartaLinguagemMaisUsada with
  | none => rfl
  | some l14 =>
  rfl

end RetroStats
